import Mathlib

/-!
Verification of the account storage and encryption-consistency layer
(`go/internal/accountutils/utils.go`).

The Go functions are shallowly embedded: filesystem and keystore effects
become explicit state passing or oracle parameters, bytes become `Nat`,
fallible operations return `Except`/`Option`, and a Go index-out-of-range
panic is modelled as a distinguished `panics` outcome.
-/

set_option autoImplicit false

namespace AccountUtils

/-! ### Constants (utils.go lines 34-42) -/

def InMemoryDir : String := ":memory:"

def AccountMetafileName : String := "account_meta"

def MessengerDatabaseFilename : String := "messenger.sqlite"

def ReplicationDatabaseFilename : String := "replication.sqlite"

def StorageKeyName : String := "storage"

/-- `cryptoutil.KeySize`. The `cryptoutil` package is outside the extracted
sources; its constant is the NaCl box key size, 32 bytes. All theorems below
are independent of the concrete value. -/
def KeySize : Nat := 32

/-- Error codes of the `errcode` package that `utils.go` wraps its failures
in. Only the codes used by `utils.go` are modelled. -/
inductive ErrCode where
  | internal
  | cryptoKeyGeneration
  | pushUnableToDecrypt
  | bertyAccountDataNotFound
  | bertyAccountFSError
  | deserialization
  | invalidInput (msg : String)
  | dbOpen
  | dbWrite
  | todo
  deriving Repr, DecidableEq

/-- Whether an error code is a not-found kind of error. Among the codes used
by `utils.go`, only `ErrBertyAccountDataNotFound` reports absence of the
requested data. -/
def ErrCode.isNotFound : ErrCode → Bool
  | .bertyAccountDataNotFound => true
  | _ => false

/-! ### Filesystem model

Only what the push-key code observes is modelled: a map from paths to file
contents. `read` returning `none` corresponds to `os.IsNotExist`; other read
failures and directory-creation failures are not modelled (the Go code wraps
them into early error returns before touching any state). -/

structure FS where
  files : List (String × List Nat)
  deriving Repr, DecidableEq

def FS.read (fs : FS) (p : String) : Option (List Nat) :=
  (fs.files.find? (fun e => e.1 == p)).map (fun e => e.2)

def FS.write (fs : FS) (p : String) (c : List Nat) : FS :=
  ⟨(p, c) :: fs.files⟩

@[simp] theorem FS.read_write (fs : FS) (p : String) (c : List Nat) :
    (fs.write p c).read p = some c := by
  simp [FS.read, FS.write, List.find?]

/-! ### KeyMaterialStore: GetDevicePushKeyForPath (utils.go lines 44-84) -/

/-- Outcome of `GetDevicePushKeyForPath`: a returned key pair, a returned
error, or a Go runtime panic (index out of range). -/
inductive PushKeyResult where
  | ok (pk sk : List Nat)
  | err (e : ErrCode)
  | panics
  deriving Repr, DecidableEq

/-- The copy loops of utils.go lines 75-81 read `contents[start+i]` for
`i < n`. `none` models the index-out-of-range panic raised by the first
out-of-bounds access. -/
def readRange (contents : List Nat) (start : Nat) : Nat → Option (List Nat)
  | 0 => some []
  | n + 1 =>
    match contents[start]?, readRange contents (start + 1) n with
    | some b, some rest => some (b :: rest)
    | _, _ => none

/-- `GetDevicePushKeyForPath` (utils.go lines 44-84). The random keypair
produced by `box.GenerateKey` is passed in as the oracles `genPk`, `genSk`
(Go type `*[KeySize]byte`, hence total functions on `Fin KeySize`); key
generation, directory creation, file creation and the write are modelled as
succeeding (each failure there is an immediate wrapped error return).
`os.Create` followed by `ioutil.WriteFile` is one `FS.write`. -/
def GetDevicePushKeyForPath (fs : FS) (genPk genSk : Fin KeySize → Nat)
    (filePath : String) (createIfMissing : Bool) : PushKeyResult × FS :=
  match fs.read filePath with
  | none =>
    if createIfMissing then
      let contents := List.ofFn genPk ++ List.ofFn genSk
      (.ok (List.ofFn genPk) (List.ofFn genSk), fs.write filePath contents)
    else
      (.err .pushUnableToDecrypt, fs)
  | some contents =>
    match readRange contents 0 KeySize, readRange contents KeySize KeySize with
    | some pkVal, some skVal => (.ok pkVal skVal, fs)
    | _, _ => (.panics, fs)

theorem readRange_eq_of_le (contents : List Nat) :
    ∀ (n start : Nat), start + n ≤ contents.length →
      readRange contents start n = some ((contents.drop start).take n) := by
  intro n
  induction n with
  | zero => intro start _; simp [readRange]
  | succ m ih =>
    intro start h
    have hlt : start < contents.length := by omega
    have hrec := ih (start + 1) (by omega)
    rw [readRange, List.getElem?_eq_getElem hlt, hrec,
      List.drop_eq_getElem_cons hlt, List.take_succ_cons]

theorem readRange_split_left (a b : List Nat) (ha : a.length = KeySize) :
    readRange (a ++ b) 0 KeySize = some a := by
  rw [readRange_eq_of_le (a ++ b) KeySize 0 (by simp [ha])]
  simp [List.take_left' ha]

theorem readRange_split_right (a b : List Nat) (ha : a.length = KeySize)
    (hb : b.length = KeySize) :
    readRange (a ++ b) KeySize KeySize = some b := by
  rw [readRange_eq_of_le (a ++ b) KeySize KeySize (by simp [ha, hb, Nat.le_refl])]
  rw [List.drop_left' ha, List.take_of_length_le (by omega)]

/-- C5: calling `GetDevicePushKeyForPath` twice on the same path with
`createIfMissing = true`, starting from a state where the key file is absent,
returns the identical (publicKey, secretKey) pair both times (whatever the
second call's generator oracles are), the key file is created only by the
first call, and the second call leaves the filesystem unchanged. -/
theorem GetDevicePushKeyForPath_idempotent (fs : FS) (p : String)
    (g1p g1s g2p g2s : Fin KeySize → Nat) (h : fs.read p = none) :
    (GetDevicePushKeyForPath fs g1p g1s p true).1
        = .ok (List.ofFn g1p) (List.ofFn g1s) ∧
    (GetDevicePushKeyForPath fs g1p g1s p true).2
        = fs.write p (List.ofFn g1p ++ List.ofFn g1s) ∧
    (GetDevicePushKeyForPath (GetDevicePushKeyForPath fs g1p g1s p true).2
        g2p g2s p true).1
      = (GetDevicePushKeyForPath fs g1p g1s p true).1 ∧
    (GetDevicePushKeyForPath (GetDevicePushKeyForPath fs g1p g1s p true).2
        g2p g2s p true).2
      = (GetDevicePushKeyForPath fs g1p g1s p true).2 := by
  have h1 : GetDevicePushKeyForPath fs g1p g1s p true
      = (.ok (List.ofFn g1p) (List.ofFn g1s),
          fs.write p (List.ofFn g1p ++ List.ofFn g1s)) := by
    simp [GetDevicePushKeyForPath, h]
  have h2 : GetDevicePushKeyForPath (fs.write p (List.ofFn g1p ++ List.ofFn g1s))
      g2p g2s p true
      = (.ok (List.ofFn g1p) (List.ofFn g1s),
          fs.write p (List.ofFn g1p ++ List.ofFn g1s)) := by
    simp only [GetDevicePushKeyForPath, FS.read_write,
      readRange_split_left (List.ofFn g1p) (List.ofFn g1s) (List.length_ofFn g1p),
      readRange_split_right (List.ofFn g1p) (List.ofFn g1s) (List.length_ofFn g1p)
        (List.length_ofFn g1s)]
  rw [h1, h2]
  exact ⟨rfl, rfl, rfl, rfl⟩

/-- Witness for C5 at a concrete input: the empty filesystem has no file at
"push.key", and the first call returns the generated pair. -/
theorem GetDevicePushKeyForPath_idempotent_witness :
    FS.read ⟨[]⟩ "push.key" = none ∧
    (GetDevicePushKeyForPath ⟨[]⟩ (fun _ => 1) (fun _ => 2) "push.key" true).1
      = .ok (List.ofFn fun _ : Fin KeySize => (1 : Nat))
          (List.ofFn fun _ : Fin KeySize => (2 : Nat)) :=
  ⟨rfl, (GetDevicePushKeyForPath_idempotent ⟨[]⟩ "push.key" (fun _ => 1)
    (fun _ => 2) (fun _ => 3) (fun _ => 4) rfl).1⟩

/-- C2 counterexample: on an absent key file with `createIfMissing = false`,
the code fails with `ErrPushUnableToDecrypt` (utils.go line 72), which is not
a not-found error code; the filesystem is unchanged. The claim, which says the
failure is a `NotFound` error, is therefore false as stated. -/
theorem GetDevicePushKeyForPath_missing_not_notFound :
    GetDevicePushKeyForPath ⟨[]⟩ (fun _ => 0) (fun _ => 0) "push.key" false
      = (.err .pushUnableToDecrypt, ⟨[]⟩) ∧
    ErrCode.isNotFound .pushUnableToDecrypt = false :=
  ⟨rfl, rfl⟩

/-- C2 (amended): for every path whose key file does not exist, calling
`GetDevicePushKeyForPath` with `createIfMissing = false` fails with
`ErrPushUnableToDecrypt` and creates no file; the filesystem is unchanged. -/
theorem GetDevicePushKeyForPath_missing_noCreate (fs : FS) (p : String)
    (gp gs : Fin KeySize → Nat) (h : fs.read p = none) :
    GetDevicePushKeyForPath fs gp gs p false = (.err .pushUnableToDecrypt, fs) := by
  simp [GetDevicePushKeyForPath, h]

/-- Witness for the amended C2 at a concrete input. -/
theorem GetDevicePushKeyForPath_missing_noCreate_witness :
    GetDevicePushKeyForPath ⟨[("other", [1])]⟩ (fun _ => 0) (fun _ => 0)
        "absent.key" false
      = (.err .pushUnableToDecrypt, ⟨[("other", [1])]⟩) :=
  GetDevicePushKeyForPath_missing_noCreate _ _ _ _ rfl

/-- C3: an existing key file shorter than `2 * KeySize` bytes does not take an
error path: the copy loop at utils.go lines 78-81 indexes past the end of the
file contents and the call panics (index out of range) instead of returning a
read error. Evaluated at a 10-byte file. -/
theorem GetDevicePushKeyForPath_short_file_panics :
    (List.replicate 10 (0 : Nat)).length < 2 * KeySize ∧
    GetDevicePushKeyForPath ⟨[("push.key", List.replicate 10 0)]⟩
        (fun _ => 0) (fun _ => 0) "push.key" true
      = (.panics, ⟨[("push.key", List.replicate 10 0)]⟩) := by
  decide

/-! ### DatastoreSelector: GetRootDatastoreForPath (utils.go lines 187-250) -/

/-- `hex.EncodeToString`: each byte becomes two lowercase hex digits
(`Nat.digitChar` yields the characters 0-9a-f for values below 16). -/
def hexEncode (key : List Nat) : String :=
  (key.foldr
    (fun b acc => Nat.digitChar (b % 256 / 16) :: Nat.digitChar (b % 16) :: acc)
    []).asString

/-- Models `filepath.Join` / `path.Join` on an already-clean directory and a
plain filename, the only way the code calls it. -/
def pathJoin (a b : String) : String := a ++ "/" ++ b

/-- Outcome of the `sqlite3.IsEncrypted` probe on the database file
(utils.go lines 206-209): a cipher-header verdict, or a probe failure. -/
inductive Probe where
  | ok (encrypted : Bool)
  | failed
  deriving Repr, DecidableEq

/-- The datastore selected by `GetRootDatastoreForPath`: the in-memory map
datastore, or the SQL datastore opened on a connection URL. Both are wrapped
in `sync_ds.MutexWrap` before being returned; `sql.Open` and the
create-table statement are external and modelled as succeeding. -/
inductive RootDS where
  | memory
  | sqliteURL (url : String)
  deriving Repr, DecidableEq

/-- `GetRootDatastoreForPath` (utils.go lines 187-250). The on-disk state is
passed in as the oracles `fileExists` (the `os.Stat` probe on the db file,
lines 202-205) and `probe` (the `sqlite3.IsEncrypted` call, lines 206-209);
`os.MkdirAll` is modelled as succeeding (its failure is an immediate error
return before any of the logic below). -/
def GetRootDatastoreForPath (dir : String) (fileExists : Bool) (probe : Probe)
    (key : List Nat) : Except ErrCode RootDS :=
  if dir = InMemoryDir then .ok .memory
  else
    let dbPath := pathJoin dir "datastore.sqlite"
    let hasDB := fileExists
    let hasEncryptedDB := match probe with | .ok b => b | .failed => false
    if key.length != 0 then
      if hasDB && !hasEncryptedDB then
        .error (.invalidInput "storage key provided while datastore db is NOT encrypted")
      else
        .ok (.sqliteURL (dbPath ++ "?_pragma_key=x\x27" ++ hexEncode key
          ++ "\x27&_pragma_cipher_page_size=4096"))
    else
      if hasDB && hasEncryptedDB then
        .error (.invalidInput "missing storage key, db is encrypted")
      else
        .ok (.sqliteURL dbPath)

/-- The tri-state on-disk condition of the database file. -/
inductive DiskState where
  | absent
  | plaintext
  | encrypted
  deriving Repr, DecidableEq

/-- What `os.Stat` reports for each on-disk state. -/
def DiskState.fileExists : DiskState → Bool
  | .absent => false
  | .plaintext => true
  | .encrypted => true

/-- What the `sqlite3.IsEncrypted` probe reports for each on-disk state: it
fails on an absent file (it cannot be opened) and otherwise reports the
cipher header. -/
def DiskState.probe : DiskState → Probe
  | .absent => .failed
  | .plaintext => .ok false
  | .encrypted => .ok true

/-- Whether the open was rejected by the encryption consistency check. -/
def isInvalidInput : Except ErrCode RootDS → Bool
  | .error (.invalidInput _) => true
  | _ => false

/-- C1: for a non-sentinel directory, over all combinations of on-disk state
(absent, plaintext, encrypted) and key argument, the open fails with
`InvalidInput` exactly when the file exists encrypted and the key is empty or
the file exists unencrypted and the key is non-empty; in every other
combination the consistency check passes and the open proceeds to a SQL
connection URL. -/
theorem GetRootDatastoreForPath_consistency (dir : String)
    (hdir : dir ≠ InMemoryDir) (ds : DiskState) (key : List Nat) :
    (isInvalidInput (GetRootDatastoreForPath dir ds.fileExists ds.probe key) = true
      ↔ ((ds = .encrypted ∧ key = []) ∨ (ds = .plaintext ∧ key ≠ []))) ∧
    (isInvalidInput (GetRootDatastoreForPath dir ds.fileExists ds.probe key) = false
      → ∃ url, GetRootDatastoreForPath dir ds.fileExists ds.probe key
          = .ok (.sqliteURL url)) := by
  cases ds <;> cases key <;>
    simp [GetRootDatastoreForPath, DiskState.fileExists, DiskState.probe,
      isInvalidInput, hdir]

/-- Witness for C1 at a concrete input: a plaintext database file plus a
non-empty key is rejected as `InvalidInput`. -/
theorem GetRootDatastoreForPath_consistency_witness :
    isInvalidInput (GetRootDatastoreForPath "/accounts/a"
      DiskState.plaintext.fileExists DiskState.plaintext.probe [7]) = true :=
  (GetRootDatastoreForPath_consistency "/accounts/a" (by decide)
    .plaintext [7]).1.mpr (Or.inr ⟨rfl, by decide⟩)

/-- C9: a failure of the `sqlite3.IsEncrypted` probe is treated exactly as
the file being detected unencrypted: the consistency check and the resulting
open behave identically for `Probe.failed` and `Probe.ok false`, for every
directory, file-existence state and key. -/
theorem GetRootDatastoreForPath_probeFailure (dir : String) (fileExists : Bool)
    (key : List Nat) :
    GetRootDatastoreForPath dir fileExists .failed key
      = GetRootDatastoreForPath dir fileExists (.ok false) key := rfl

/-! ### RelationalStoreOpener (utils.go lines 252-295) -/

/-- Decimal rendering of a natural number, modelling the `%d` verb of
`fmt.Sprintf` applied to the (non-negative) `UnixNano` value:
most-significant digit first, and zero prints as "0". -/
def decimalRepr (n : Nat) : String :=
  if n = 0 then (['0'] : List Char).asString
  else (((Nat.digits 10 n).map Nat.digitChar).reverse).asString

/-- The unique per-call in-memory connection string of utils.go line 271,
parameterised by the `time.Now().UnixNano()` oracle. -/
def inMemoryConnString (nowNano : Nat) : String :=
  "file:memdb" ++ decimalRepr nowNano ++ "?mode=memory&cache=shared"

/-- The connection-string synthesis of `GetGormDBForPath` (utils.go lines
268-278). The subsequent `gorm.Open` and the returned close function are
external collaborators; the modelled observable of the function is the
connection string it builds. -/
def GetGormDBForPath (dbPath : String) (key : List Nat) (nowNano : Nat) : String :=
  if dbPath = InMemoryDir then inMemoryConnString nowNano
  else if key.length != 0 then
    dbPath ++ "?_pragma_key=x\x27" ++ hexEncode key
      ++ "\x27&_pragma_cipher_page_size=4096"
  else dbPath

/-- `GetMessengerDBForPath` (utils.go lines 252-258). -/
def GetMessengerDBForPath (dir : String) (key : List Nat) (nowNano : Nat) : String :=
  GetGormDBForPath
    (if dir = InMemoryDir then dir else pathJoin dir MessengerDatabaseFilename)
    key nowNano

/-- `GetReplicationDBForPath` (utils.go lines 260-266): joins the replication
filename onto the directory unless it is the in-memory sentinel, and always
passes `nil` as the key. -/
def GetReplicationDBForPath (dir : String) (nowNano : Nat) : String :=
  GetGormDBForPath
    (if dir = InMemoryDir then dir else pathJoin dir ReplicationDatabaseFilename)
    [] nowNano

theorem digitChar_inj_lt10 : ∀ a, a < 10 → ∀ b, b < 10 →
    Nat.digitChar a = Nat.digitChar b → a = b := by decide

theorem map_digitChar_inj (l1 : List Nat) : ∀ l2 : List Nat,
    (∀ x ∈ l1, x < 10) → (∀ x ∈ l2, x < 10) →
    l1.map Nat.digitChar = l2.map Nat.digitChar → l1 = l2 := by
  induction l1 with
  | nil =>
    intro l2 _ _ h
    cases l2 with
    | nil => rfl
    | cons b t => simp at h
  | cons a t1 ih =>
    intro l2 h1 h2 h
    cases l2 with
    | nil => simp at h
    | cons b t2 =>
      simp only [List.map_cons, List.cons.injEq] at h
      have ha : a < 10 := h1 a (by simp)
      have hb : b < 10 := h2 b (by simp)
      have hab := digitChar_inj_lt10 a ha b hb h.1
      subst hab
      have ht := ih t2 (fun x hx => h1 x (by simp [hx]))
        (fun x hx => h2 x (by simp [hx])) h.2
      rw [ht]

theorem asString_injective : Function.Injective List.asString :=
  fun _ _ h => congrArg String.data h

theorem decimalRepr_ne_zero {b : Nat} (hb : b ≠ 0) :
    decimalRepr b ≠ decimalRepr 0 := by
  intro h
  rw [decimalRepr, decimalRepr, if_neg hb, if_pos rfl] at h
  have hd := asString_injective h
  have hmap : (Nat.digits 10 b).map Nat.digitChar = ['0'] := by
    have := congrArg List.reverse hd
    simpa using this
  cases hdig : Nat.digits 10 b with
  | nil => rw [hdig] at hmap; simp at hmap
  | cons d t =>
    rw [hdig] at hmap
    simp only [List.map_cons, List.cons.injEq] at hmap
    have htnil : t = [] := by simpa using hmap.2
    subst htnil
    have hbd : b = d := by
      have hof := Nat.ofDigits_digits 10 b
      rw [hdig] at hof
      simpa [Nat.ofDigits] using hof.symm
    have hd10 : d < 10 :=
      Nat.digits_lt_base (by norm_num) (by rw [hdig]; simp)
    have hd0 : d = 0 :=
      digitChar_inj_lt10 d hd10 0 (by norm_num) (hmap.1.trans rfl)
    omega

theorem decimalRepr_injective : Function.Injective decimalRepr := by
  intro a b h
  by_cases ha : a = 0 <;> by_cases hb : b = 0
  · rw [ha, hb]
  · subst ha; exact absurd h.symm (decimalRepr_ne_zero hb)
  · subst hb; exact absurd h (decimalRepr_ne_zero ha)
  · rw [decimalRepr, decimalRepr, if_neg ha, if_neg hb] at h
    have hd := asString_injective h
    have hrev := List.reverse_injective hd
    have hmap := map_digitChar_inj _ _
      (fun x hx => Nat.digits_lt_base (by norm_num) hx)
      (fun x hx => Nat.digits_lt_base (by norm_num) hx) hrev
    exact Nat.digits_inj_iff.mp hmap

theorem inMemoryConnString_inj {t1 t2 : Nat}
    (h : inMemoryConnString t1 = inMemoryConnString t2) : t1 = t2 := by
  apply decimalRepr_injective
  rw [inMemoryConnString, inMemoryConnString] at h
  have hd := congrArg String.data h
  simp only [String.data_append] at hd
  rw [List.append_assoc, List.append_assoc] at hd
  have h1 := List.append_cancel_left hd
  have h2 := List.append_cancel_right h1
  exact String.ext h2

/-- C8: two calls to `GetGormDBForPath` with the in-memory sentinel directory
and distinct `UnixNano` values synthesize distinct in-memory connection
strings, whatever the key arguments are. -/
theorem GetGormDBForPath_inMemory_distinct (key1 key2 : List Nat) (t1 t2 : Nat)
    (h : t1 ≠ t2) :
    GetGormDBForPath InMemoryDir key1 t1 ≠ GetGormDBForPath InMemoryDir key2 t2 := by
  simp only [GetGormDBForPath, if_pos rfl]
  intro hc
  exact h (inMemoryConnString_inj hc)

/-- Witness for C8 at concrete inputs: the connection strings for nanosecond
values 0 and 1 differ. -/
theorem GetGormDBForPath_inMemory_distinct_witness :
    GetGormDBForPath InMemoryDir [] 0 ≠ GetGormDBForPath InMemoryDir [] 1 :=
  GetGormDBForPath_inMemory_distinct [] [] 0 1 (by decide)

theorem pathJoin_replication_ne_inMemoryDir (dir : String) :
    pathJoin dir ReplicationDatabaseFilename ≠ InMemoryDir := by
  intro hc
  have hlen := congrArg String.length hc
  rw [pathJoin] at hlen
  simp only [String.length_append] at hlen
  have h1 : ("/" : String).length = 1 := rfl
  have h2 : ReplicationDatabaseFilename.length = 18 := rfl
  have h3 : InMemoryDir.length = 8 := rfl
  rw [h1, h2, h3] at hlen
  omega

/-- C10: `GetReplicationDBForPath` always opens without an encryption key:
the connection string it builds is the bare joined file path, or the
in-memory URL for the sentinel directory; the hex-key / cipher-page-size
parameters are never appended, whatever storage key the installation has
(the function passes `nil` to `GetGormDBForPath`, line 265). -/
theorem GetReplicationDBForPath_plainConn (dir : String) (t : Nat) :
    GetReplicationDBForPath dir t
      = if dir = InMemoryDir then inMemoryConnString t
        else pathJoin dir ReplicationDatabaseFilename := by
  by_cases hdir : dir = InMemoryDir
  · simp [GetReplicationDBForPath, GetGormDBForPath, hdir]
  · simp [GetReplicationDBForPath, GetGormDBForPath, hdir,
      pathJoin_replication_ne_inMemoryDir dir]

/-! ### SystemKeystoreAdapter: GetOrCreateStorageKey (utils.go lines 120-139) -/

/-- The errors returned by `GetOrCreateStorageKey`. `keystoreGetWrap` and
`keystorePutWrap` model `errcode.ErrKeystoreGet` / `errcode.ErrKeystorePut`
wrapping `multierr.Append(getErr, err)`: each carries the original fetch
error and the second error. -/
inductive KsError where
  | cryptoKeyGeneration (e : String)
  | keystoreGetWrap (getErr putErr : String)
  | keystorePutWrap (getErr refetchErr : String)
  deriving Repr, DecidableEq

/-- The native-keystore capability and the random source, as oracles: the
outcome of the initial `ks.Get`, of `crand.Read`, of `ks.Put` on the stored
bytes, and of the re-fetching `ks.Get`. -/
structure KeystoreOracle where
  get1 : Except String (List Nat)
  randBytes : Except String (List Nat)
  put : List Nat → Except String Unit
  get2 : Except String (List Nat)

/-- `GetOrCreateStorageKey` (utils.go lines 120-139). The second component
records whether `ks.Put` was invoked. -/
def GetOrCreateStorageKey (ks : KeystoreOracle) :
    Except KsError (List Nat) × Bool :=
  match ks.get1 with
  | .ok key => (.ok key, false)
  | .error getErr =>
    match ks.randBytes with
    | .error e => (.error (.cryptoKeyGeneration e), false)
    | .ok keyData =>
      match ks.put keyData with
      | .error putErr => (.error (.keystoreGetWrap getErr putErr), true)
      | .ok _ =>
        match ks.get2 with
        | .error e2 => (.error (.keystorePutWrap getErr e2), true)
        | .ok key => (.ok key, true)

/-- C4: if the initial Get succeeds its value is returned and Put is never
called; if the initial Get fails and the generated bytes are stored
successfully, the returned value is exactly the one obtained by the second
Get from the keystore (never the locally generated bytes, which do not
appear in the result); if the Put or the re-fetch fails, the returned error
carries both the original Get error and the second error. -/
theorem GetOrCreateStorageKey_spec (ks : KeystoreOracle) :
    (∀ k, ks.get1 = .ok k → GetOrCreateStorageKey ks = (.ok k, false)) ∧
    (∀ ge d k2, ks.get1 = .error ge → ks.randBytes = .ok d →
      ks.put d = .ok () → ks.get2 = .ok k2 →
      GetOrCreateStorageKey ks = (.ok k2, true)) ∧
    (∀ ge d pe, ks.get1 = .error ge → ks.randBytes = .ok d →
      ks.put d = .error pe →
      GetOrCreateStorageKey ks = (.error (.keystoreGetWrap ge pe), true)) ∧
    (∀ ge d e2, ks.get1 = .error ge → ks.randBytes = .ok d →
      ks.put d = .ok () → ks.get2 = .error e2 →
      GetOrCreateStorageKey ks = (.error (.keystorePutWrap ge e2), true)) := by
  refine ⟨?_, ?_, ?_, ?_⟩
  · intro k h1
    simp [GetOrCreateStorageKey, h1]
  · intro ge d k2 h1 h2 h3 h4
    simp [GetOrCreateStorageKey, h1, h2, h3, h4]
  · intro ge d pe h1 h2 h3
    simp [GetOrCreateStorageKey, h1, h2, h3]
  · intro ge d e2 h1 h2 h3 h4
    simp [GetOrCreateStorageKey, h1, h2, h3, h4]

/-- Witness for C4 at concrete oracles: a failed initial Get followed by a
successful Put returns the keystore-confirmed value `[9, 9]` from the second
Get, not the locally generated bytes `[1, 1]`; a successful initial Get
returns its value without calling Put. -/
theorem GetOrCreateStorageKey_spec_witness :
    GetOrCreateStorageKey
        ⟨.error "missing", .ok [1, 1], fun _ => .ok (), .ok [9, 9]⟩
      = (.ok [9, 9], true) ∧
    GetOrCreateStorageKey
        ⟨.ok [5], .ok [1, 1], fun _ => .ok (), .ok [9, 9]⟩
      = (.ok [5], false) :=
  ⟨(GetOrCreateStorageKey_spec _).2.1 "missing" [1, 1] [9, 9] rfl rfl rfl rfl,
    (GetOrCreateStorageKey_spec _).1 [5] rfl⟩

/-! ### AccountMetadataRegistry (utils.go lines 86-118 and 141-164) -/

/-- The account metadata record. `accountID`, `error` and (representative of
the remaining serialized fields) `name` are modelled; the Go zero value of
each field is the empty string. -/
structure AccountMetadata where
  accountID : String := ""
  name : String := ""
  error : String := ""
  deriving Repr, DecidableEq

/-- Outcome of `ioutil.ReadFile` on an account's `account_meta` file:
absent (`os.IsNotExist`), unreadable (any other read error), or contents. -/
inductive MetaFile where
  | absent
  | unreadable
  | contents (bytes : List Nat)
  deriving Repr, DecidableEq

/-- `GetAccountMetaForName` (utils.go lines 141-164). The file lookup at
`rootDir/accountID/account_meta` is abstracted to the read outcome
`metaRead`, and `proto.Unmarshal` to the oracle `unmarshal`. On success the
`accountID` field is force-set from the directory name (line 161). -/
def GetAccountMetaForName (unmarshal : List Nat → Except Unit AccountMetadata)
    (metaRead : MetaFile) (accountID : String) :
    Except ErrCode AccountMetadata :=
  match metaRead with
  | .absent => .error .bertyAccountDataNotFound
  | .unreadable => .error .bertyAccountFSError
  | .contents bytes =>
    match unmarshal bytes with
    | .error _ => .error .deserialization
    | .ok meta => .ok { meta with accountID := accountID }

/-- An immediate entry of the root directory, as seen by `ioutil.ReadDir`:
its name, whether it is a directory, and the read outcome of its
`account_meta` file. -/
structure Subitem where
  name : String
  isDir : Bool
  metaRead : MetaFile
  deriving Repr, DecidableEq

/-- State of the root directory: absent (`os.IsNotExist` on `os.Stat`),
a failing `os.Stat`, a failing `ioutil.ReadDir`, or its entries. -/
inductive RootDir where
  | absent
  | statFailed
  | readDirFailed
  | present (items : List Subitem)

/-- The accumulation loop of utils.go lines 104-115: non-directories are
skipped; a failed metadata load appends a placeholder carrying the directory
name and the stringified error (`err.Error()` is the oracle `errStr`). -/
def listAccountsLoop (errStr : ErrCode → String)
    (unmarshal : List Nat → Except Unit AccountMetadata) :
    List Subitem → List AccountMetadata → List AccountMetadata
  | [], acc => acc
  | it :: rest, acc =>
    if it.isDir then
      match GetAccountMetaForName unmarshal it.metaRead it.name with
      | .error e =>
        listAccountsLoop errStr unmarshal rest
          (acc ++ [{ accountID := it.name, error := errStr e }])
      | .ok account => listAccountsLoop errStr unmarshal rest (acc ++ [account])
    else listAccountsLoop errStr unmarshal rest acc

/-- `ListAccounts` (utils.go lines 86-118). -/
def ListAccounts (errStr : ErrCode → String)
    (unmarshal : List Nat → Except Unit AccountMetadata) :
    RootDir → Except ErrCode (List AccountMetadata)
  | .absent => .ok []
  | .statFailed => .error .bertyAccountFSError
  | .readDirFailed => .error .bertyAccountFSError
  | .present items => .ok (listAccountsLoop errStr unmarshal items [])

/-- The entry `ListAccounts` produces for one subdirectory: the loaded
metadata, or on load failure a placeholder whose `accountID` is the
directory name and whose `error` is the stringified load error (all other
fields at their zero value). -/
def listedEntry (errStr : ErrCode → String)
    (unmarshal : List Nat → Except Unit AccountMetadata)
    (it : Subitem) : AccountMetadata :=
  match GetAccountMetaForName unmarshal it.metaRead it.name with
  | .error e => { accountID := it.name, error := errStr e }
  | .ok account => account

theorem listAccountsLoop_eq (errStr : ErrCode → String)
    (unmarshal : List Nat → Except Unit AccountMetadata)
    (items : List Subitem) :
    ∀ acc, listAccountsLoop errStr unmarshal items acc
      = acc ++ (items.filter (fun it => it.isDir)).map
          (listedEntry errStr unmarshal) := by
  induction items with
  | nil => intro acc; simp [listAccountsLoop]
  | cons it rest ih =>
    intro acc
    by_cases hd : it.isDir
    · rw [listAccountsLoop, if_pos hd, List.filter_cons_of_pos hd]
      cases hm : GetAccountMetaForName unmarshal it.metaRead it.name with
      | error e =>
        simp only [hm]
        rw [ih]
        simp [listedEntry, hm]
      | ok account =>
        simp only [hm]
        rw [ih]
        simp [listedEntry, hm]
    · rw [listAccountsLoop, if_neg hd,
        List.filter_cons_of_neg (by simpa using hd), ih]

/-- C6: for an existing root directory, `ListAccounts` never fails: it
returns one entry per immediate subdirectory (non-directories are skipped),
where a subdirectory whose metadata load fails contributes a placeholder
with its name as `accountID` and the stringified load error in `error`, and
every other subdirectory contributes its fully loaded metadata. -/
theorem ListAccounts_resilient (errStr : ErrCode → String)
    (unmarshal : List Nat → Except Unit AccountMetadata)
    (items : List Subitem) :
    ListAccounts errStr unmarshal (.present items)
      = .ok ((items.filter (fun it => it.isDir)).map
          (listedEntry errStr unmarshal)) := by
  rw [ListAccounts, listAccountsLoop_eq]
  rfl

/-- C7: every successful `GetAccountMetaForName` returns a metadata record
whose `accountID` equals the directory-name argument, regardless of the
`accountID` the serialized bytes decode to. -/
theorem GetAccountMetaForName_overridesID
    (unmarshal : List Nat → Except Unit AccountMetadata)
    (metaRead : MetaFile) (accountID : String) (meta : AccountMetadata)
    (h : GetAccountMetaForName unmarshal metaRead accountID = .ok meta) :
    meta.accountID = accountID := by
  cases metaRead with
  | absent => exact absurd h (by simp [GetAccountMetaForName])
  | unreadable => exact absurd h (by simp [GetAccountMetaForName])
  | contents bytes =>
    rw [GetAccountMetaForName] at h
    cases hu : unmarshal bytes with
    | error e => rw [hu] at h; exact absurd h (by simp)
    | ok m => rw [hu] at h; cases h; rfl

/-- Witness for C7 at a concrete input: a metadata file decoding to the
stale `accountID = "stale"` stored under directory "real-id" reads back with
`accountID = "real-id"`. -/
theorem GetAccountMetaForName_overridesID_witness :
    GetAccountMetaForName (fun _ => .ok ⟨"stale", "bob", ""⟩)
        (.contents [1]) "real-id"
      = .ok ⟨"real-id", "bob", ""⟩ ∧
    (AccountMetadata.mk "real-id" "bob" "").accountID = "real-id" :=
  ⟨rfl, GetAccountMetaForName_overridesID (fun _ => .ok ⟨"stale", "bob", ""⟩)
    (.contents [1]) "real-id" ⟨"real-id", "bob", ""⟩ rfl⟩

end AccountUtils
